import Mathlib

/-!
Shallow embedding of the `rutt` terminal mail client's viewport/navigation
engine (`src/ui/app.rs` and the event loop in `src/ui/events.rs`), together
with theorems checking the natural-language specification against it.

Modelling conventions:
* `usize` values become `Nat`.  Rust's plain `-` on `usize` panics on
  underflow, so every plain subtraction in the source is embedded through
  `csub`, which returns `none` exactly when the Rust code would panic;
  `saturating_sub` becomes truncated `Nat` subtraction, which has the same
  semantics.
* `detail_scroll_offset` is a `u16` manipulated with `saturating_add` /
  `saturating_sub`; the saturating add is made explicit with `satAdd16`.
* The fallible IMAP fetch `GmailClient::fetch_email_body` is abstracted as an
  oracle `fetch : Nat → Option String` (`some` = `Ok`, `none` = `Err`).
  `view_email` additionally returns the number of fetch calls it performed so
  that "fetches exactly once / never" is expressible.
-/

namespace Rutt

/-- Checked subtraction: `csub a b` is `some (a - b)` when `b ≤ a` and `none`
otherwise, mirroring Rust's panicking `usize` subtraction. -/
def csub (a b : Nat) : Option Nat :=
  if b ≤ a then some (a - b) else none

theorem csub_eq_some_iff {a b c : Nat} : csub a b = some c ↔ b ≤ a ∧ c = a - b := by
  unfold csub
  split <;> simp_all [eq_comm]

theorem csub_eq_none_iff {a b : Nat} : csub a b = none ↔ a < b := by
  unfold csub
  split <;> rename_i h <;> simp <;> omega

theorem csub_eq_some {a b : Nat} (h : b ≤ a) : csub a b = some (a - b) := by
  simp [csub, h]

/-- Maximal value of a `u16`. -/
def u16Max : Nat := 65535

/-- Saturating addition on `u16`, as `Nat` clamped at `u16Max`. -/
def satAdd16 (a b : Nat) : Nat := min (a + b) u16Max

/-- One email record: the `_uid` used to fetch the body and the lazily
populated `body`.  Display-only fields (subject, sender, date, read flag) do
not influence navigation and are omitted. -/
structure Email where
  uid : Nat
  body : Option String
  deriving DecidableEq, Repr, Inhabited

/-- Application view modes (`ViewMode` in `app.rs`). -/
inductive ViewMode where
  | list : ViewMode
  | detail (idx : Nat) : ViewMode
  deriving DecidableEq, Repr

/-- Main application state (`App` in `app.rs`).  `selected` embeds
`list_state.selected()`. -/
structure App where
  emails : List Email
  selected : Option Nat
  mode : ViewMode
  scroll_offset : Nat
  visible_items : Nat
  detail_scroll_offset : Nat
  deriving DecidableEq, Repr

/-- `App::new`: select the first email when the list is non-empty; the window
height starts as the placeholder 10. -/
def appNew (emails : List Email) : App :=
  { emails := emails
    selected := if emails.isEmpty then none else some 0
    mode := .list
    scroll_offset := 0
    visible_items := 10
    detail_scroll_offset := 0 }

/-- `App::set_visible_items`: store the observed window height. -/
def set_visible_items (height : Nat) (a : App) : App :=
  { a with visible_items := height }

/-- `App::next`. -/
def next (a : App) : Option App :=
  if a.emails.isEmpty then some a else
  let current_selected := a.selected.getD 0
  match csub a.emails.length 1 with
  | none => none
  | some lastIdx =>
    if current_selected ≥ lastIdx then some a else
    let new_selected := current_selected + 1
    if new_selected ≥ a.scroll_offset + a.visible_items then
      match csub new_selected a.visible_items with
      | none => none
      | some t => some { a with selected := some new_selected, scroll_offset := t + 1 }
    else some { a with selected := some new_selected }

/-- `App::previous`. -/
def previous (a : App) : Option App :=
  if a.emails.isEmpty then some a else
  let current_selected := a.selected.getD 0
  if current_selected = 0 then some a else
  match csub current_selected 1 with
  | none => none
  | some new_selected =>
    if new_selected < a.scroll_offset then
      some { a with selected := some new_selected, scroll_offset := new_selected }
    else some { a with selected := some new_selected }

/-- `App::view_email`, instrumented with the number of `fetch_email_body`
calls performed (0 or 1). -/
def view_email (fetch : Nat → Option String) (a : App) : App × Nat :=
  match a.selected with
  | none => (a, 0)
  | some selected =>
    if selected < a.emails.length then
      let e := a.emails.getD selected default
      match e.body with
      | none =>
        match fetch e.uid with
        | some body =>
          ({ a with emails := a.emails.set selected { e with body := some body }
                    mode := .detail selected }, 1)
        | none => ({ a with mode := .detail selected }, 1)
      | some _ => ({ a with mode := .detail selected }, 0)
    else (a, 0)

/-- `App::back_to_list`. -/
def back_to_list (a : App) : App :=
  { a with mode := .list, detail_scroll_offset := 0 }

/-- `App::goto_page_top`. -/
def goto_page_top (a : App) : Option App :=
  if a.emails.isEmpty then some a else
  some { a with selected := some a.scroll_offset }

/-- `App::goto_page_middle`. -/
def goto_page_middle (a : App) : Option App :=
  if a.emails.isEmpty then some a else
  let window_end := min (a.scroll_offset + a.visible_items) a.emails.length
  match csub window_end a.scroll_offset with
  | none => none
  | some window_size =>
    let middle_offset := window_size / 2
    let middle_index := a.scroll_offset + middle_offset
    match csub a.emails.length 1 with
    | none => none
    | some lastIdx =>
      some { a with selected := some (min middle_index lastIdx) }

/-- `App::goto_page_bottom`. -/
def goto_page_bottom (a : App) : Option App :=
  if a.emails.isEmpty then some a else
  match csub (a.scroll_offset + a.visible_items) 1 with
  | none => none
  | some t =>
    match csub a.emails.length 1 with
    | none => none
    | some lastIdx => some { a with selected := some (min t lastIdx) }

/-- `App::page_forward` (`emails.len().saturating_sub(visible_items)` is
truncated `Nat` subtraction). -/
def page_forward (a : App) : Option App :=
  if a.emails.isEmpty then some a else
  let new_offset := min (a.scroll_offset + a.visible_items)
    (a.emails.length - a.visible_items)
  if new_offset ≠ a.scroll_offset then
    some { a with scroll_offset := new_offset, selected := some new_offset }
  else
    match csub a.emails.length 1 with
    | none => none
    | some lastIdx => some { a with selected := some lastIdx }

/-- `App::page_backward`. -/
def page_backward (a : App) : Option App :=
  if a.emails.isEmpty then some a else
  let new_offset := a.scroll_offset - a.visible_items
  some { a with scroll_offset := new_offset, selected := some new_offset }

/-- `App::half_page_forward`. -/
def half_page_forward (a : App) : Option App :=
  if a.emails.isEmpty then some a else
  let half_page := max (a.visible_items / 2) 1
  let current_selected := a.selected.getD 0
  let current_position_in_window := current_selected - a.scroll_offset
  let new_scroll_offset := min (a.scroll_offset + half_page)
    (a.emails.length - a.visible_items)
  match csub a.emails.length 1 with
  | none => none
  | some lastIdx =>
    let new_selected := min (new_scroll_offset + current_position_in_window) lastIdx
    some { a with scroll_offset := new_scroll_offset, selected := some new_selected }

/-- `App::half_page_backward`. -/
def half_page_backward (a : App) : Option App :=
  if a.emails.isEmpty then some a else
  let half_page := max (a.visible_items / 2) 1
  let current_selected := a.selected.getD 0
  let current_position_in_window := current_selected - a.scroll_offset
  let new_scroll_offset := a.scroll_offset - half_page
  let new_selected := new_scroll_offset + current_position_in_window
  some { a with scroll_offset := new_scroll_offset, selected := some new_selected }

/-- `App::line_forward`. -/
def line_forward (a : App) : Option App :=
  if a.emails.isEmpty then some a else
  let current_selected := a.selected.getD 0
  let new_scroll_offset := min (a.scroll_offset + 1)
    (a.emails.length - a.visible_items)
  match csub a.emails.length 1 with
  | none => none
  | some lastIdx =>
    if current_selected = a.scroll_offset ∧ new_scroll_offset > current_selected ∧
        current_selected < lastIdx then
      some { a with scroll_offset := new_scroll_offset
                    selected := some (current_selected + 1) }
    else some { a with scroll_offset := new_scroll_offset }

/-- `App::line_backward`. -/
def line_backward (a : App) : Option App :=
  if a.emails.isEmpty then some a else
  let current_selected := a.selected.getD 0
  match csub (a.scroll_offset + a.visible_items) 1 with
  | none => none
  | some t =>
    match csub a.emails.length 1 with
    | none => none
    | some lastIdx =>
      let new_scroll_offset := a.scroll_offset - 1
      if current_selected = min t lastIdx ∧ new_scroll_offset < current_selected ∧
          0 < current_selected then
        match csub current_selected 1 with
        | none => none
        | some s =>
          some { a with scroll_offset := new_scroll_offset, selected := some s }
      else some { a with scroll_offset := new_scroll_offset }

/-- `App::detail_scroll_down` (`u16::saturating_add`). -/
def detail_scroll_down (a : App) : App :=
  { a with detail_scroll_offset := satAdd16 a.detail_scroll_offset 1 }

/-- `App::detail_scroll_up` (`u16::saturating_sub`). -/
def detail_scroll_up (a : App) : App :=
  { a with detail_scroll_offset := a.detail_scroll_offset - 1 }

/-- `App::detail_line_forward`. -/
def detail_line_forward (a : App) : App :=
  { a with detail_scroll_offset := satAdd16 a.detail_scroll_offset 1 }

/-- `App::detail_line_backward`. -/
def detail_line_backward (a : App) : App :=
  { a with detail_scroll_offset := a.detail_scroll_offset - 1 }

/-- The eleven public list-mode motion operations. -/
inductive ListOp where
  | next | previous | gotoPageTop | gotoPageMiddle | gotoPageBottom
  | pageForward | pageBackward | halfPageForward | halfPageBackward
  | lineForward | lineBackward
  deriving DecidableEq, Repr

/-- Dispatch a list-mode operation. -/
def applyListOp : ListOp → App → Option App
  | .next, a => next a
  | .previous, a => previous a
  | .gotoPageTop, a => goto_page_top a
  | .gotoPageMiddle, a => goto_page_middle a
  | .gotoPageBottom, a => goto_page_bottom a
  | .pageForward, a => page_forward a
  | .pageBackward, a => page_backward a
  | .halfPageForward, a => half_page_forward a
  | .halfPageBackward, a => half_page_backward a
  | .lineForward, a => line_forward a
  | .lineBackward, a => line_backward a

/-- Run a sequence of list-mode operations, propagating panics. -/
def runListOps : List ListOp → App → Option App
  | [], a => some a
  | op :: rest, a => (applyListOp op a).bind (runListOps rest)

/-- The ListViewport invariant of the specification (strengthened with
`selected < total` and `1 ≤ visible_items`, both needed for induction). -/
def Inv (a : App) : Prop :=
  1 ≤ a.visible_items ∧ 0 < a.emails.length ∧
  a.scroll_offset ≤ a.emails.length - a.visible_items ∧
  ∃ s, a.selected = some s ∧ a.scroll_offset ≤ s ∧
    s < a.scroll_offset + a.visible_items ∧ s < a.emails.length

theorem isEmpty_false {α : Type} (l : List α) (h : 0 < l.length) :
    l.isEmpty = false := by
  cases l with
  | nil => simp at h
  | cons x xs => rfl

theorem next_inv (a : App) (h : Inv a) : ∃ a', next a = some a' ∧ Inv a' := by
  obtain ⟨hh, hn, ho, s, hs, hs1, hs2, hs3⟩ := h
  have he : a.emails.isEmpty = false := isEmpty_false _ hn
  simp only [next, he, hs, Option.getD_some, Bool.false_eq_true, if_false, ge_iff_le]
  split
  · rename_i hnone
    exact absurd (csub_eq_none_iff.mp hnone) (by omega)
  · rename_i lastIdx hsome
    obtain ⟨_, rfl⟩ := csub_eq_some_iff.mp hsome
    split
    · exact ⟨a, rfl, hh, hn, ho, s, hs, hs1, hs2, hs3⟩
    · rename_i hlt
      split
      · rename_i hge
        split
        · rename_i hnone2
          exact absurd (csub_eq_none_iff.mp hnone2) (by omega)
        · rename_i t ht
          obtain ⟨_, rfl⟩ := csub_eq_some_iff.mp ht
          refine ⟨_, rfl, ?_⟩
          unfold Inv
          dsimp only
          exact ⟨by omega, by omega, by omega, s + 1, rfl, by omega, by omega, by omega⟩
      · rename_i hge
        refine ⟨_, rfl, ?_⟩
        unfold Inv
        dsimp only
        exact ⟨by omega, by omega, by omega, s + 1, rfl, by omega, by omega, by omega⟩

theorem previous_inv (a : App) (h : Inv a) : ∃ a', previous a = some a' ∧ Inv a' := by
  obtain ⟨hh, hn, ho, s, hs, hs1, hs2, hs3⟩ := h
  have he : a.emails.isEmpty = false := isEmpty_false _ hn
  simp only [previous, he, hs, Option.getD_some, Bool.false_eq_true, if_false]
  split
  · exact ⟨a, rfl, hh, hn, ho, s, hs, hs1, hs2, hs3⟩
  · rename_i hs0
    split
    · rename_i hnone
      exact absurd (csub_eq_none_iff.mp hnone) (by omega)
    · rename_i ns hsome
      obtain ⟨_, rfl⟩ := csub_eq_some_iff.mp hsome
      split
      · refine ⟨_, rfl, ?_⟩
        unfold Inv
        dsimp only
        exact ⟨by omega, by omega, by omega, s - 1, rfl, by omega, by omega, by omega⟩
      · refine ⟨_, rfl, ?_⟩
        unfold Inv
        dsimp only
        exact ⟨by omega, by omega, by omega, s - 1, rfl, by omega, by omega, by omega⟩

theorem goto_page_top_inv (a : App) (h : Inv a) :
    ∃ a', goto_page_top a = some a' ∧ Inv a' := by
  obtain ⟨hh, hn, ho, s, hs, hs1, hs2, hs3⟩ := h
  have he : a.emails.isEmpty = false := isEmpty_false _ hn
  simp only [goto_page_top, he, Bool.false_eq_true, if_false]
  refine ⟨_, rfl, ?_⟩
  unfold Inv
  dsimp only
  exact ⟨by omega, by omega, by omega, a.scroll_offset, rfl, by omega, by omega, by omega⟩

theorem goto_page_middle_inv (a : App) (h : Inv a) :
    ∃ a', goto_page_middle a = some a' ∧ Inv a' := by
  obtain ⟨hh, hn, ho, s, hs, hs1, hs2, hs3⟩ := h
  have he : a.emails.isEmpty = false := isEmpty_false _ hn
  simp only [goto_page_middle, he, Bool.false_eq_true, if_false]
  split
  · rename_i hnone
    exact absurd (csub_eq_none_iff.mp hnone) (by omega)
  · rename_i ws hws
    obtain ⟨_, rfl⟩ := csub_eq_some_iff.mp hws
    split
    · rename_i hnone
      exact absurd (csub_eq_none_iff.mp hnone) (by omega)
    · rename_i lastIdx hlast
      obtain ⟨_, rfl⟩ := csub_eq_some_iff.mp hlast
      refine ⟨_, rfl, ?_⟩
      unfold Inv
      dsimp only
      refine ⟨by omega, by omega, by omega, _, rfl, by omega, by omega, by omega⟩

theorem goto_page_bottom_inv (a : App) (h : Inv a) :
    ∃ a', goto_page_bottom a = some a' ∧ Inv a' := by
  obtain ⟨hh, hn, ho, s, hs, hs1, hs2, hs3⟩ := h
  have he : a.emails.isEmpty = false := isEmpty_false _ hn
  simp only [goto_page_bottom, he, Bool.false_eq_true, if_false]
  split
  · rename_i hnone
    exact absurd (csub_eq_none_iff.mp hnone) (by omega)
  · rename_i t ht
    obtain ⟨_, rfl⟩ := csub_eq_some_iff.mp ht
    split
    · rename_i hnone
      exact absurd (csub_eq_none_iff.mp hnone) (by omega)
    · rename_i lastIdx hlast
      obtain ⟨_, rfl⟩ := csub_eq_some_iff.mp hlast
      refine ⟨_, rfl, ?_⟩
      unfold Inv
      dsimp only
      refine ⟨by omega, by omega, by omega, _, rfl, by omega, by omega, by omega⟩

theorem page_forward_inv (a : App) (h : Inv a) :
    ∃ a', page_forward a = some a' ∧ Inv a' := by
  obtain ⟨hh, hn, ho, s, hs, hs1, hs2, hs3⟩ := h
  have he : a.emails.isEmpty = false := isEmpty_false _ hn
  simp only [page_forward, he, Bool.false_eq_true, if_false, ne_eq]
  split
  · rename_i hne
    refine ⟨_, rfl, ?_⟩
    unfold Inv
    dsimp only
    refine ⟨by omega, by omega, by omega, _, rfl, by omega, by omega, by omega⟩
  · rename_i hne
    split
    · rename_i hnone
      exact absurd (csub_eq_none_iff.mp hnone) (by omega)
    · rename_i lastIdx hlast
      obtain ⟨_, rfl⟩ := csub_eq_some_iff.mp hlast
      refine ⟨_, rfl, ?_⟩
      unfold Inv
      dsimp only
      refine ⟨by omega, by omega, by omega, _, rfl, by omega, by omega, by omega⟩

theorem page_backward_inv (a : App) (h : Inv a) :
    ∃ a', page_backward a = some a' ∧ Inv a' := by
  obtain ⟨hh, hn, ho, s, hs, hs1, hs2, hs3⟩ := h
  have he : a.emails.isEmpty = false := isEmpty_false _ hn
  simp only [page_backward, he, Bool.false_eq_true, if_false]
  refine ⟨_, rfl, ?_⟩
  unfold Inv
  dsimp only
  refine ⟨by omega, by omega, by omega, _, rfl, by omega, by omega, by omega⟩

theorem half_page_forward_inv (a : App) (h : Inv a) :
    ∃ a', half_page_forward a = some a' ∧ Inv a' := by
  obtain ⟨hh, hn, ho, s, hs, hs1, hs2, hs3⟩ := h
  have he : a.emails.isEmpty = false := isEmpty_false _ hn
  simp only [half_page_forward, he, hs, Option.getD_some, Bool.false_eq_true, if_false]
  split
  · rename_i hnone
    exact absurd (csub_eq_none_iff.mp hnone) (by omega)
  · rename_i lastIdx hlast
    obtain ⟨_, rfl⟩ := csub_eq_some_iff.mp hlast
    refine ⟨_, rfl, ?_⟩
    unfold Inv
    dsimp only
    refine ⟨by omega, by omega, by omega, _, rfl, by omega, by omega, by omega⟩

theorem half_page_backward_inv (a : App) (h : Inv a) :
    ∃ a', half_page_backward a = some a' ∧ Inv a' := by
  obtain ⟨hh, hn, ho, s, hs, hs1, hs2, hs3⟩ := h
  have he : a.emails.isEmpty = false := isEmpty_false _ hn
  simp only [half_page_backward, he, hs, Option.getD_some, Bool.false_eq_true, if_false]
  refine ⟨_, rfl, ?_⟩
  unfold Inv
  dsimp only
  refine ⟨by omega, by omega, by omega, _, rfl, by omega, by omega, by omega⟩

theorem line_forward_inv (a : App) (h : Inv a) :
    ∃ a', line_forward a = some a' ∧ Inv a' := by
  obtain ⟨hh, hn, ho, s, hs, hs1, hs2, hs3⟩ := h
  have he : a.emails.isEmpty = false := isEmpty_false _ hn
  simp only [line_forward, he, hs, Option.getD_some, Bool.false_eq_true, if_false, gt_iff_lt]
  split
  · rename_i hnone
    exact absurd (csub_eq_none_iff.mp hnone) (by omega)
  · rename_i lastIdx hlast
    obtain ⟨_, rfl⟩ := csub_eq_some_iff.mp hlast
    split
    · rename_i hcond
      refine ⟨_, rfl, ?_⟩
      unfold Inv
      dsimp only
      refine ⟨by omega, by omega, by omega, _, rfl, by omega, by omega, by omega⟩
    · rename_i hcond
      refine ⟨_, rfl, ?_⟩
      unfold Inv
      dsimp only
      refine ⟨by omega, by omega, by omega, s, rfl, by omega, by omega, by omega⟩

theorem line_backward_inv (a : App) (h : Inv a) :
    ∃ a', line_backward a = some a' ∧ Inv a' := by
  obtain ⟨hh, hn, ho, s, hs, hs1, hs2, hs3⟩ := h
  have he : a.emails.isEmpty = false := isEmpty_false _ hn
  simp only [line_backward, he, hs, Option.getD_some, Bool.false_eq_true, if_false]
  split
  · rename_i hnone
    exact absurd (csub_eq_none_iff.mp hnone) (by omega)
  · rename_i t ht
    obtain ⟨_, rfl⟩ := csub_eq_some_iff.mp ht
    split
    · rename_i hnone
      exact absurd (csub_eq_none_iff.mp hnone) (by omega)
    · rename_i lastIdx hlast
      obtain ⟨_, rfl⟩ := csub_eq_some_iff.mp hlast
      split
      · rename_i hcond
        split
        · rename_i hnone
          exact absurd (csub_eq_none_iff.mp hnone) (by omega)
        · rename_i ns hns
          obtain ⟨_, rfl⟩ := csub_eq_some_iff.mp hns
          refine ⟨_, rfl, ?_⟩
          unfold Inv
          dsimp only
          refine ⟨by omega, by omega, by omega, _, rfl, by omega, by omega, by omega⟩
      · rename_i hcond
        refine ⟨_, rfl, ?_⟩
        unfold Inv
        dsimp only
        refine ⟨by omega, by omega, by omega, s, rfl, by omega, by omega, by omega⟩

/-- Any single list-mode operation on an invariant-satisfying state succeeds
and preserves the invariant. -/
theorem applyListOp_inv (op : ListOp) (a : App) (h : Inv a) :
    ∃ a', applyListOp op a = some a' ∧ Inv a' := by
  cases op with
  | next => exact next_inv a h
  | previous => exact previous_inv a h
  | gotoPageTop => exact goto_page_top_inv a h
  | gotoPageMiddle => exact goto_page_middle_inv a h
  | gotoPageBottom => exact goto_page_bottom_inv a h
  | pageForward => exact page_forward_inv a h
  | pageBackward => exact page_backward_inv a h
  | halfPageForward => exact half_page_forward_inv a h
  | halfPageBackward => exact half_page_backward_inv a h
  | lineForward => exact line_forward_inv a h
  | lineBackward => exact line_backward_inv a h

/-- Any sequence of list-mode operations on an invariant-satisfying state
succeeds and preserves the invariant. -/
theorem runListOps_inv (ops : List ListOp) (a : App) (h : Inv a) :
    ∃ a', runListOps ops a = some a' ∧ Inv a' := by
  induction ops generalizing a with
  | nil => exact ⟨a, rfl, h⟩
  | cons op rest ih =>
    obtain ⟨a1, h1, hinv1⟩ := applyListOp_inv op a h
    obtain ⟨a2, h2, hinv2⟩ := ih a1 hinv1
    exact ⟨a2, by simp [runListOps, h1, h2], hinv2⟩

/-- On an empty list every list-mode operation returns the state unchanged. -/
theorem applyListOp_empty (op : ListOp) (a : App) (h : a.emails = []) :
    applyListOp op a = some a := by
  have he : a.emails.isEmpty = true := by simp [h]
  cases op <;>
    simp [applyListOp, next, previous, goto_page_top, goto_page_middle,
      goto_page_bottom, page_forward, page_backward, half_page_forward,
      half_page_backward, line_forward, line_backward, he]

/-- A successful list-mode operation never changes the email list, the view
mode, the visible height, or the detail scroll offset. -/
theorem applyListOp_frame (op : ListOp) (a a' : App)
    (h : applyListOp op a = some a') :
    a'.emails = a.emails ∧ a'.visible_items = a.visible_items ∧
    a'.mode = a.mode ∧ a'.detail_scroll_offset = a.detail_scroll_offset := by
  cases op <;>
    simp only [applyListOp, next, previous, goto_page_top, goto_page_middle,
      goto_page_bottom, page_forward, page_backward, half_page_forward,
      half_page_backward, line_forward, line_backward] at h <;>
    (repeat' split at h) <;>
    (first
      | exact Option.noConfusion h
      | (injection h with h2; subst h2; exact ⟨rfl, rfl, rfl, rfl⟩))

/-- `view_email` never touches the detail scroll offset. -/
theorem view_email_detail_offset (fetch : Nat → Option String) (a : App) :
    (view_email fetch a).1.detail_scroll_offset = a.detail_scroll_offset := by
  unfold view_email
  split
  · rfl
  · split
    · dsimp only
      split
      · split <;> rfl
      · rfl
    · rfl

/-- Moving to the selection `s + 1`, `previous` always lands back on `s`. -/
theorem previous_sel (b : App) (s : Nat) (hb : b.selected = some (s + 1))
    (hn : 0 < b.emails.length) :
    ∃ a2, previous b = some a2 ∧ a2.selected = some s := by
  have he := isEmpty_false _ hn
  simp only [previous, he, hb, Option.getD_some, Bool.false_eq_true, if_false]
  split
  · rename_i h2
    exact absurd h2 (by omega)
  · split
    · rename_i hnone
      exact absurd (csub_eq_none_iff.mp hnone) (by omega)
    · rename_i ns hns
      obtain ⟨_, rfl⟩ := csub_eq_some_iff.mp hns
      split
      · exact ⟨_, rfl, rfl⟩
      · exact ⟨_, rfl, rfl⟩

/-- Keyboard inputs distinguished by the `run_app` event loop in `events.rs`
(`other` stands for any key press matched by none of the arms). -/
inductive KeyInput where
  | keyJ | keyDown | keyCtrlN | keyK | keyUp | keyCtrlP
  | keyCtrlF | keyCtrlB | keyCtrlD | keyCtrlU | keyCtrlE | keyCtrlY
  | keyH | keyM | keyL | keyEnter | keyQ | keyEsc | other
  deriving DecidableEq, Repr

/-- Result of one iteration of `run_app`'s key handling: continue with a new
state, or quit (`q`/Esc in list mode returns from the loop). -/
inductive StepResult where
  | cont (a : App) : StepResult
  | quit : StepResult
  deriving DecidableEq, Repr

/-- The list-mode key bindings of `run_app`, as a table from key to motion. -/
def keyToListOp : KeyInput → Option ListOp
  | .keyJ | .keyDown | .keyCtrlN => some .next
  | .keyK | .keyUp | .keyCtrlP => some .previous
  | .keyCtrlF => some .pageForward
  | .keyCtrlB => some .pageBackward
  | .keyCtrlD => some .halfPageForward
  | .keyCtrlU => some .halfPageBackward
  | .keyCtrlE => some .lineForward
  | .keyCtrlY => some .lineBackward
  | .keyH => some .gotoPageTop
  | .keyM => some .gotoPageMiddle
  | .keyL => some .gotoPageBottom
  | _ => none

/-- One key dispatch of `run_app` (`events.rs`): in list mode the motion keys
drive the ListViewport, Enter calls `view_email`, and `q`/Esc quits; in detail
mode `j`/Down/`k`/Up and Ctrl-n/e/p/y drive the detail scroll and `q`/Esc
calls `back_to_list`.  `none` models a panic inside an operation. -/
def runStep (fetch : Nat → Option String) (k : KeyInput) (a : App) :
    Option StepResult :=
  match a.mode with
  | .list =>
    match keyToListOp k with
    | some op =>
      match applyListOp op a with
      | none => none
      | some a2 => some (.cont a2)
    | none =>
      match k with
      | .keyEnter => some (.cont (view_email fetch a).1)
      | .keyQ | .keyEsc => some .quit
      | _ => some (.cont a)
  | .detail _ =>
    match k with
    | .keyJ | .keyDown => some (.cont (detail_scroll_down a))
    | .keyK | .keyUp => some (.cont (detail_scroll_up a))
    | .keyCtrlN | .keyCtrlE => some (.cont (detail_line_forward a))
    | .keyCtrlP | .keyCtrlY => some (.cont (detail_line_backward a))
    | .keyQ | .keyEsc => some (.cont (back_to_list a))
    | _ => some (.cont a)

/-- States reachable by the event loop: the initial `App::new` state, one key
dispatch, or the `set_visible_items` call the renderer performs each frame. -/
inductive Reachable (fetch : Nat → Option String) (emails : List Email) :
    App → Prop where
  | init : Reachable fetch emails (appNew emails)
  | step (k : KeyInput) (a a' : App) : Reachable fetch emails a →
      runStep fetch k a = some (.cont a') → Reachable fetch emails a'
  | resize (hgt : Nat) (a : App) : Reachable fetch emails a →
      Reachable fetch emails (set_visible_items hgt a)

/-- Concrete state used for the C2 counterexample: 10 emails, window height
10, scroll offset 5. -/
def c2App : App :=
  { emails := List.replicate 10 ⟨1, none⟩
    selected := some 9
    mode := .list
    scroll_offset := 5
    visible_items := 10
    detail_scroll_offset := 0 }

/-- Concrete state used for the C4 counterexample: one email with a loaded
body, List mode, valid selection, nonzero detail scroll offset. -/
def c4App : App :=
  { emails := [⟨1, some "hello"⟩]
    selected := some 0
    mode := .list
    scroll_offset := 0
    visible_items := 10
    detail_scroll_offset := 3 }

/-- Concrete state used for the C5 witness: 20 emails, window height 5, at
the list end (`selected = 19`, `scroll_offset = 15`). -/
def c5App : App :=
  { emails := List.replicate 20 ⟨1, none⟩
    selected := some 19
    mode := .list
    scroll_offset := 15
    visible_items := 5
    detail_scroll_offset := 0 }

/-- Concrete state used for the C6 witness: 30 emails, window height 10,
cursor and window at the top. -/
def c6App : App :=
  { emails := List.replicate 30 ⟨1, none⟩
    selected := some 0
    mode := .list
    scroll_offset := 0
    visible_items := 10
    detail_scroll_offset := 0 }

/-- Concrete state used for the C7 counterexample: detail offset at the
`u16` maximum. -/
def c7App : App :=
  { emails := []
    selected := none
    mode := .detail 0
    scroll_offset := 0
    visible_items := 10
    detail_scroll_offset := 65535 }

/-- Concrete state used for the C8 witness: 20 emails, window height 5,
interior cursor position 3. -/
def c8App : App :=
  { emails := List.replicate 20 ⟨1, none⟩
    selected := some 3
    mode := .list
    scroll_offset := 0
    visible_items := 5
    detail_scroll_offset := 0 }

/-- C1: for every list with `total > 0` and every sequence of public
list-mode operations applied from the initial state, the resulting state
satisfies `0 ≤ scroll_offset ≤ max 0 (total - visible_height)` and
`scroll_offset ≤ selected < scroll_offset + visible_height`. -/
theorem c1_list_invariants (emails : List Email) (ops : List ListOp)
    (h : 0 < emails.length) :
    ∃ a', runListOps ops (appNew emails) = some a' ∧
      a'.scroll_offset ≤ max 0 (a'.emails.length - a'.visible_items) ∧
      ∃ s, a'.selected = some s ∧ a'.scroll_offset ≤ s ∧
        s < a'.scroll_offset + a'.visible_items := by
  have he := isEmpty_false _ h
  have hinv : Inv (appNew emails) := by
    unfold Inv appNew
    dsimp only
    simp only [he, Bool.false_eq_true, if_false]
    exact ⟨by omega, h, by omega, 0, rfl, by omega, by omega, h⟩
  obtain ⟨a', hrun, hh', hn', ho', s, hs', h1, h2, h3⟩ := runListOps_inv ops _ hinv
  exact ⟨a', hrun, by omega, s, hs', h1, h2⟩

/-- Witness for C1 at a concrete three-email list and operation sequence. -/
theorem c1_list_invariants_witness :
    ∃ a', runListOps [ListOp.next, ListOp.pageForward, ListOp.lineBackward]
        (appNew [⟨1, none⟩, ⟨2, none⟩, ⟨3, none⟩]) = some a' ∧
      a'.scroll_offset ≤ max 0 (a'.emails.length - a'.visible_items) ∧
      ∃ s, a'.selected = some s ∧ a'.scroll_offset ≤ s ∧
        s < a'.scroll_offset + a'.visible_items :=
  c1_list_invariants [⟨1, none⟩, ⟨2, none⟩, ⟨3, none⟩]
    [ListOp.next, ListOp.pageForward, ListOp.lineBackward] (by decide)

/-- C2 as stated is false on the code: `set_visible_items` performs no
re-clamping; with `total = 10` and `scroll_offset = 5`, resizing to height 20
leaves `scroll_offset = 5`, whereas the claim requires
`min 5 (max 0 (10 - 20)) = 0`. -/
theorem c2_counterexample :
    ¬((set_visible_items 20 c2App).scroll_offset =
      min c2App.scroll_offset (max 0 (c2App.emails.length - 20))) := by decide

/-- C2 amended: `set_visible_items new_h` stores the height and leaves every
other field (`selected`, `scroll_offset`, `emails`, `mode`, detail offset)
unchanged; no re-clamping of `scroll_offset` or `selected` happens. -/
theorem c2_amended_resize_stores_height (newH : Nat) (a : App) :
    (set_visible_items newH a).visible_items = newH ∧
    (set_visible_items newH a).selected = a.selected ∧
    (set_visible_items newH a).scroll_offset = a.scroll_offset ∧
    (set_visible_items newH a).emails = a.emails ∧
    (set_visible_items newH a).mode = a.mode ∧
    (set_visible_items newH a).detail_scroll_offset = a.detail_scroll_offset :=
  ⟨rfl, rfl, rfl, rfl, rfl, rfl⟩

/-- C3's flooring clause is false on the code: resizing to height 0 stores 0
(not 1), and `goto_page_bottom` then underflows
(`scroll_offset + visible_items - 1`) on a one-email list, i.e. the embedded
operation returns `none` (the Rust subtraction panics). -/
theorem c3_counterexample :
    (set_visible_items 0 (appNew [⟨1, none⟩])).visible_items = 0 ∧
    goto_page_bottom (set_visible_items 0 (appNew [⟨1, none⟩])) = none := by
  decide

/-- C3 amended: `set_visible_items` stores any height verbatim (no floor at
1); every list operation is total on invariant-satisfying states (which have
`visible_items ≥ 1`) and on empty-list states, but nothing protects the
operations after a resize to height 0. -/
theorem c3_amended_totality (a : App) (hgt : Nat) :
    (set_visible_items hgt a).visible_items = hgt ∧
    (Inv a → ∀ op, ∃ a', applyListOp op a = some a') ∧
    (a.emails = [] → ∀ op, applyListOp op a = some a) := by
  refine ⟨rfl, ?_, ?_⟩
  · intro hi op
    obtain ⟨a', h1, _⟩ := applyListOp_inv op a hi
    exact ⟨a', h1⟩
  · intro hempty op
    exact applyListOp_empty op a hempty

/-- Witness for C3's amended theorem at concrete inputs. -/
theorem c3_amended_totality_witness :
    (set_visible_items 7 (appNew [⟨1, none⟩])).visible_items = 7 ∧
    (∃ a', applyListOp ListOp.gotoPageBottom (appNew [⟨1, none⟩]) = some a') ∧
    applyListOp ListOp.gotoPageBottom (appNew []) = some (appNew []) := by
  have h := c3_amended_totality (appNew [⟨1, none⟩]) 7
  have h0 := c3_amended_totality (appNew []) 7
  refine ⟨h.1, h.2.1 ?_ ListOp.gotoPageBottom, h0.2.2 rfl ListOp.gotoPageBottom⟩
  unfold Inv
  exact ⟨by decide, by decide, by decide, 0, by decide, by decide, by decide,
    by decide⟩

/-- C4's reset clause is false on the code: `view_email` never writes
`detail_scroll_offset`; invoked in List mode with a valid selection and a
detail offset of 3, the offset stays 3 instead of being reset to 0. -/
theorem c4_counterexample :
    c4App.mode = ViewMode.list ∧ c4App.selected = some 0 ∧
    0 < c4App.emails.length ∧
    ¬((view_email (fun _ => none) c4App).1.detail_scroll_offset = 0) := by
  decide

/-- C4 amended: with a valid selection `i`, `view_email` fetches exactly when
the body is `None` (never when already `Some`), leaves the body `None` when
the fetch fails, transitions the mode to `Detail i` in all cases, and leaves
the detail scroll offset unchanged (it is not reset here; it is zero on entry
only thanks to the event-loop invariant of C10). -/
theorem c4_amended_view_email (fetch : Nat → Option String) (a : App) (i : Nat)
    (hm : a.mode = ViewMode.list) (hs : a.selected = some i)
    (hi : i < a.emails.length) :
    ((a.emails.getD i default).body = none →
      (view_email fetch a).2 = 1 ∧
      (fetch (a.emails.getD i default).uid = none →
        ((view_email fetch a).1.emails.getD i default).body = none)) ∧
    ((a.emails.getD i default).body ≠ none →
      (view_email fetch a).2 = 0 ∧ (view_email fetch a).1.emails = a.emails) ∧
    (view_email fetch a).1.mode = ViewMode.detail i ∧
    (view_email fetch a).1.detail_scroll_offset = a.detail_scroll_offset := by
  have hgd : a.emails.getD i default = a.emails[i] :=
    List.getD_eq_getElem _ _ hi
  rcases hb : (a.emails[i]).body with _ | b
  · rcases hf : fetch (a.emails[i]).uid with _ | body
    · simp [view_email, hs, hi, hgd, hb, hf, List.getElem?_eq_getElem hi]
    · simp [view_email, hs, hi, hgd, hb, hf]
  · simp [view_email, hs, hi, hgd, hb]

/-- Witness for C4's amended theorem at a concrete one-email state with a
missing body and a failing fetch. -/
theorem c4_amended_view_email_witness :
    (((appNew [⟨1, none⟩]).emails.getD 0 default).body = none →
      (view_email (fun _ => none) (appNew [⟨1, none⟩])).2 = 1 ∧
      ((none : Option String) = none →
        ((view_email (fun _ => none) (appNew [⟨1, none⟩])).1.emails.getD 0
          default).body = none)) ∧
    (((appNew [⟨1, none⟩]).emails.getD 0 default).body ≠ none →
      (view_email (fun _ => none) (appNew [⟨1, none⟩])).2 = 0 ∧
      (view_email (fun _ => none) (appNew [⟨1, none⟩])).1.emails =
        (appNew [⟨1, none⟩]).emails) ∧
    (view_email (fun _ => none) (appNew [⟨1, none⟩])).1.mode =
      ViewMode.detail 0 ∧
    (view_email (fun _ => none) (appNew [⟨1, none⟩])).1.detail_scroll_offset =
      (appNew [⟨1, none⟩]).detail_scroll_offset :=
  c4_amended_view_email (fun _ => none) (appNew [⟨1, none⟩]) 0 rfl rfl
    (by decide)

/-- C5: on a non-empty list with `scroll_offset ≤ total`, `goto_page_middle`
leaves `scroll_offset` unchanged and selects
`o + ((min (o + h) n - o) / 2)` clamped to `n - 1`. -/
theorem c5_goto_page_middle (a : App) (hn : 0 < a.emails.length)
    (ho : a.scroll_offset ≤ a.emails.length) :
    goto_page_middle a = some { a with selected := some (min
      (a.scroll_offset +
        (min (a.scroll_offset + a.visible_items) a.emails.length -
          a.scroll_offset) / 2)
      (a.emails.length - 1)) } := by
  have he := isEmpty_false _ hn
  have h1 : csub (min (a.scroll_offset + a.visible_items) a.emails.length)
      a.scroll_offset = some (min (a.scroll_offset + a.visible_items)
        a.emails.length - a.scroll_offset) := csub_eq_some (by omega)
  have h2 : csub a.emails.length 1 = some (a.emails.length - 1) :=
    csub_eq_some (by omega)
  simp only [goto_page_middle, he, Bool.false_eq_true, if_false, h1, h2]

/-- Witness for C5: at list end with `n = 20`, `h = 5`, `selected = 19`,
`scroll_offset = 15`, `goto_page_middle` selects 17. -/
theorem c5_goto_page_middle_witness :
    goto_page_middle c5App = some { c5App with selected := some 17 } := by
  have h := c5_goto_page_middle c5App (by decide) (by decide)
  rw [h]
  decide

/-- C6: on a non-empty list `page_forward` moves the window to
`min (o + h) (n saturating-minus h)`; if the window advanced the cursor lands
on the new `scroll_offset`, otherwise the cursor jumps to `n - 1` with the
window unchanged; a state `page_forward` leaves completely unchanged has
`selected = n - 1`. -/
theorem c6_page_forward (a : App) (hn : 0 < a.emails.length) :
    ∃ a', page_forward a = some a' ∧
      (if min (a.scroll_offset + a.visible_items)
            (a.emails.length - a.visible_items) ≠ a.scroll_offset
       then a'.scroll_offset = min (a.scroll_offset + a.visible_items)
              (a.emails.length - a.visible_items) ∧
            a'.selected = some (min (a.scroll_offset + a.visible_items)
              (a.emails.length - a.visible_items))
       else a'.scroll_offset = a.scroll_offset ∧
            a'.selected = some (a.emails.length - 1)) ∧
      (a' = a → a.selected = some (a.emails.length - 1)) := by
  have he := isEmpty_false _ hn
  simp only [page_forward, he, Bool.false_eq_true, if_false, ne_eq]
  split
  · rename_i hne
    refine ⟨_, rfl, ⟨rfl, rfl⟩, ?_⟩
    intro heq
    exact absurd (congrArg App.scroll_offset heq) hne
  · rename_i hne
    rw [not_not] at hne
    split
    · rename_i hnone
      exact absurd (csub_eq_none_iff.mp hnone) (by omega)
    · rename_i lastIdx hlast
      obtain ⟨_, rfl⟩ := csub_eq_some_iff.mp hlast
      refine ⟨_, rfl, ⟨rfl, rfl⟩, ?_⟩
      intro heq
      exact (congrArg App.selected heq).symm

/-- Witness for C6 on a 30-email list with window height 10 at the top. -/
theorem c6_page_forward_witness :
    ∃ a', page_forward c6App = some a' ∧
      (if min (c6App.scroll_offset + c6App.visible_items)
            (c6App.emails.length - c6App.visible_items) ≠ c6App.scroll_offset
       then a'.scroll_offset = min (c6App.scroll_offset + c6App.visible_items)
              (c6App.emails.length - c6App.visible_items) ∧
            a'.selected = some (min (c6App.scroll_offset + c6App.visible_items)
              (c6App.emails.length - c6App.visible_items))
       else a'.scroll_offset = c6App.scroll_offset ∧
            a'.selected = some (c6App.emails.length - 1)) ∧
      (a' = c6App → c6App.selected = some (c6App.emails.length - 1)) :=
  c6_page_forward c6App (by decide)

/-- C7's "no upper clamp" clause is false on the code: the offset is a `u16`,
so at 65535 `detail_scroll_down` saturates instead of adding exactly 1. -/
theorem c7_counterexample :
    ¬((detail_scroll_down c7App).detail_scroll_offset =
      c7App.detail_scroll_offset + 1) := by decide

/-- C7 amended: `scroll_up` subtracts exactly 1 saturating at 0;
`scroll_down` adds exactly 1 but saturates at the `u16` maximum 65535; the
aliases `detail_line_forward`/`detail_line_backward` coincide with
`scroll_down`/`scroll_up` on every state. -/
theorem c7_amended_detail_scroll (a : App) :
    (detail_scroll_up a).detail_scroll_offset = a.detail_scroll_offset - 1 ∧
    (detail_scroll_down a).detail_scroll_offset =
      min (a.detail_scroll_offset + 1) u16Max ∧
    detail_line_forward a = detail_scroll_down a ∧
    detail_line_backward a = detail_scroll_up a :=
  ⟨rfl, rfl, rfl, rfl⟩

/-- C8: from any interior position (`0 < selected < total - 1`) satisfying
the viewport invariants, `next` followed by `previous` restores the original
selection. -/
theorem c8_next_previous_roundtrip (a : App) (s : Nat) (hinv : Inv a)
    (hs : a.selected = some s) (h0 : 0 < s) (h1 : s < a.emails.length - 1) :
    ∃ a1 a2, next a = some a1 ∧ previous a1 = some a2 ∧
      a2.selected = some s := by
  obtain ⟨hh, hn, ho, s2, hs2, hb1, hb2, hb3⟩ := hinv
  rw [hs] at hs2
  injection hs2 with hs2
  subst hs2
  have he := isEmpty_false _ hn
  simp only [next, he, hs, Option.getD_some, Bool.false_eq_true, if_false,
    ge_iff_le]
  split
  · rename_i hnone
    exact absurd (csub_eq_none_iff.mp hnone) (by omega)
  · rename_i lastIdx hlast
    obtain ⟨_, rfl⟩ := csub_eq_some_iff.mp hlast
    split
    · rename_i h2
      exact absurd h2 (by omega)
    · rename_i h2
      split
      · rename_i hge
        split
        · rename_i hnone
          exact absurd (csub_eq_none_iff.mp hnone) (by omega)
        · rename_i t ht
          obtain ⟨_, rfl⟩ := csub_eq_some_iff.mp ht
          obtain ⟨a2, hp, hsel⟩ := previous_sel
            { a with selected := some (s + 1),
                     scroll_offset := s + 1 - a.visible_items + 1 }
            s rfl (by dsimp only; omega)
          exact ⟨_, a2, rfl, hp, hsel⟩
      · rename_i hge
        obtain ⟨a2, hp, hsel⟩ := previous_sel
          { a with selected := some (s + 1) } s rfl (by dsimp only; omega)
        exact ⟨_, a2, rfl, hp, hsel⟩

/-- Witness for C8 at a concrete interior position. -/
theorem c8_next_previous_roundtrip_witness :
    ∃ a1 a2, next c8App = some a1 ∧ previous a1 = some a2 ∧
      a2.selected = some 3 :=
  c8_next_previous_roundtrip c8App 3
    (by unfold Inv
        exact ⟨by decide, by decide, by decide, 3, by decide, by decide,
          by decide, by decide⟩)
    (by decide) (by decide) (by decide)

/-- C9: on the empty list every list-mode operation, and every sequence of
them, is a successful no-op: the state is unchanged, `selected` stays `none`,
`scroll_offset` stays 0, and no panic (`none`) occurs. -/
theorem c9_empty_list_noop (ops : List ListOp) :
    runListOps ops (appNew []) = some (appNew []) ∧
    (appNew []).selected = none ∧ (appNew []).scroll_offset = 0 := by
  refine ⟨?_, rfl, rfl⟩
  induction ops with
  | nil => rfl
  | cons op rest ih =>
    simp only [runListOps, applyListOp_empty op (appNew []) rfl]
    exact ih

/-- C10: on every state reachable by the event loop, List mode implies a zero
detail scroll offset — it starts at 0, `back_to_list` resets it on every exit
from Detail mode, and no list-mode dispatch writes it (in particular
`view_email` does not). -/
theorem c10_list_mode_detail_zero (fetch : Nat → Option String)
    (emails : List Email) (a : App) (h : Reachable fetch emails a) :
    a.mode = ViewMode.list → a.detail_scroll_offset = 0 := by
  induction h with
  | init => intro _; rfl
  | resize hgt b hr ih => intro hm; exact ih hm
  | step k b a' hr hstep ih =>
    intro hm
    unfold runStep at hstep
    rcases hmode : b.mode with _ | i
    · rw [hmode] at hstep
      have hb0 : b.detail_scroll_offset = 0 := ih hmode
      dsimp only at hstep
      split at hstep
      · split at hstep
        · exact Option.noConfusion hstep
        · rename_i a2 h2
          injection hstep with h3
          injection h3 with h3
          subst h3
          exact ((applyListOp_frame _ b a2 h2).2.2.2).trans hb0
      · split at hstep <;>
          first
          | (injection hstep with h3; exact StepResult.noConfusion h3)
          | (injection hstep with h3; injection h3 with h3; subst h3;
             first
             | (rw [view_email_detail_offset]; exact hb0)
             | exact hb0)
    · rw [hmode] at hstep
      dsimp only at hstep
      split at hstep <;>
        (injection hstep with h3; injection h3 with h3; subst h3) <;>
        first
        | rfl
        | (dsimp only [detail_scroll_down, detail_scroll_up,
            detail_line_forward, detail_line_backward] at hm;
           rw [hmode] at hm; exact ViewMode.noConfusion hm)
        | (rw [hmode] at hm; exact ViewMode.noConfusion hm)

/-- Witness for C10 at the initial state of the event loop. -/
theorem c10_list_mode_detail_zero_witness :
    (appNew []).detail_scroll_offset = 0 :=
  c10_list_mode_detail_zero (fun _ => none) [] (appNew []) Reachable.init rfl

end Rutt
